import Mathlib

/-!
Verification of the FastMCP dashboard core: the in-memory server store
(`src/web/lib/server-store.ts`), the control-plane URL resolution
(`src/web/lib/control-plane.ts`), the dashboard submit-payload construction
(the page component), and the API proxy routes.  JavaScript strings are
modelled as Lean `String`; the JS string primitives used by the code
(`startsWith`, `endsWith`, `trim`, `replace(/\/$/, "")`) are modelled by
structurally recursive functions on the character list so that concrete
instances evaluate inside the kernel.  Nondeterministic inputs of the code
(`crypto.randomUUID()`, `new Date().toISOString()`, `process.env`) are passed
as explicit parameters.
-/

namespace FastMCP

/-- `leadsWith p l` is true when the list `p` is an initial segment of `l`
(the model of JS `startsWith` on character lists). -/
def leadsWith : List Char → List Char → Bool
  | [], _ => true
  | _ :: _, [] => false
  | c :: p, d :: l => c == d && leadsWith p l

/-- Model of JS `s.startsWith(p)`. -/
def startsWithS (s p : String) : Bool := leadsWith p.data s.data

/-- Model of JS `s.endsWith(p)`. -/
def endsWithS (s p : String) : Bool := leadsWith p.data.reverse s.data.reverse

/-- Model of JS `s.replace(/\/$/, "")`: removes one trailing `'/'` if present. -/
def stripSlash (s : String) : String :=
  if endsWithS s "/" then String.mk s.data.dropLast else s

/-- The characters JS `String.prototype.trim` removes (WhiteSpace and
LineTerminator code points). -/
def jsSpaceChars : List Char :=
  [' ', '\t', '\n', '\r', '\x0b', '\x0c', '\u00A0', '\uFEFF',
   '\u1680', '\u2000', '\u2001', '\u2002', '\u2003', '\u2004', '\u2005',
   '\u2006', '\u2007', '\u2008', '\u2009', '\u200A', '\u2028', '\u2029',
   '\u202F', '\u205F', '\u3000']

/-- Is the character removed by JS `trim`? -/
def isJsSpace (c : Char) : Bool := jsSpaceChars.contains c

/-- JS `trim` on a character list: drop JS whitespace from the front, then
from the back (`List.rdropWhile p l = (l.reverse.dropWhile p).reverse`). -/
def trimL (l : List Char) : List Char :=
  List.rdropWhile isJsSpace (l.dropWhile isJsSpace)

/-- Model of JS `s.trim()`: drops the JS whitespace characters from both
ends. -/
def trimS (s : String) : String := String.mk (trimL s.data)

/-! ## The data model of `src/web/lib/server-store.ts` -/

/-- `export type ServerType = "stdio" | "http" | "sse"`. -/
inductive ServerType
  | stdio
  | http
  | sse
deriving DecidableEq

/-- The string a `ServerType` value interpolates to in a template literal. -/
def ServerType.str : ServerType → String
  | .stdio => "stdio"
  | .http => "http"
  | .sse => "sse"

/-- The log levels of `ServerLog.level`. -/
inductive LogLevel
  | info
  | warn
  | error
deriving DecidableEq

/-- `export type ServerLog`. -/
structure ServerLog where
  id : String
  timestamp : String
  level : LogLevel
  message : String
deriving DecidableEq

/-- `export type ServerRecord`. -/
structure ServerRecord where
  id : String
  name : String
  endpoint : String
  type : ServerType
  createdAt : String
deriving DecidableEq

/-- `type StoreShape = { servers: ServerRecord[]; logs: Record<string, ServerLog[]> }`.
The record (JS object used as a map) is modelled as a function to `Option`:
`none` is an absent key. -/
structure StoreShape where
  servers : List ServerRecord
  logs : String → Option (List ServerLog)

/-- The store `getStore` initialises on first use: `{ servers: [], logs: {} }`. -/
def emptyStore : StoreShape := ⟨[], fun _ => none⟩

/-- The argument type of `addServer`: `Omit<ServerRecord, "createdAt">`. -/
structure NewServerInput where
  id : String
  name : String
  endpoint : String
  type : ServerType

/-- The argument type of `appendServerLog`: `Omit<ServerLog, "id">`. -/
structure LogInput where
  timestamp : String
  level : LogLevel
  message : String
deriving DecidableEq

/-- `listServers`: returns the store's server array. -/
def listServers (s : StoreShape) : List ServerRecord := s.servers

/-- `addServer`: builds the record with `createdAt` from the current time
(`now`), prepends it to `servers`, and sets the server's log to a single
info entry whose id and timestamp are the fresh `crypto.randomUUID()` and
`new Date().toISOString()` values (`logId`, `logTs`). -/
def addServer (input : NewServerInput) (now logId logTs : String) (s : StoreShape) :
    ServerRecord × StoreShape :=
  let record : ServerRecord :=
    ⟨input.id, input.name, input.endpoint, input.type, now⟩
  let initialLog : ServerLog :=
    ⟨logId, logTs, .info,
      "Server " ++ input.name ++ " added (" ++ input.type.str ++ ")."⟩
  (record,
    ⟨record :: s.servers,
      fun k => if k = record.id then some [initialLog] else s.logs k⟩)

/-- `removeServer`: filters the record with the given id out of `servers`,
deletes the id's log entry, and returns whether the array shrank. -/
def removeServer (id : String) (s : StoreShape) : Bool × StoreShape :=
  let remaining := s.servers.filter (fun r => r.id != id)
  (decide (remaining.length < s.servers.length),
    ⟨remaining, fun k => if k = id then none else s.logs k⟩)

/-- `getServerLogs`: if the id has no log entry, stores (and returns) a
single info placeholder entry "No logs yet for this server."; otherwise
returns the stored log unchanged. -/
def getServerLogs (id freshId ts : String) (s : StoreShape) :
    List ServerLog × StoreShape :=
  match s.logs id with
  | some l => (l, s)
  | none =>
    let entry : ServerLog := ⟨freshId, ts, .info, "No logs yet for this server."⟩
    ([entry], ⟨s.servers, fun k => if k = id then some [entry] else s.logs k⟩)

/-- The entry `appendServerLog` builds: `{ ...log, id: crypto.randomUUID() }`. -/
def mkLogEntry (freshId : String) (log : LogInput) : ServerLog :=
  ⟨freshId, log.timestamp, log.level, log.message⟩

/-- `appendServerLog`: prepends the new entry to the id's log (treating an
absent log as `[]`) and keeps the first 200 entries (`.slice(0, 200)`). -/
def appendServerLog (sid freshId : String) (log : LogInput) (s : StoreShape) :
    StoreShape :=
  ⟨s.servers,
    fun k =>
      if k = sid then
        some ((mkLogEntry freshId log :: (s.logs sid).getD []).take 200)
      else s.logs k⟩

/-- A sequence of `appendServerLog` calls on one server id, each with its
fresh uuid. -/
def appendMany (sid : String) (ps : List (String × LogInput)) (s : StoreShape) :
    StoreShape :=
  ps.foldl (fun st p => appendServerLog sid p.1 p.2 st) s

/-! ## `src/web/lib/control-plane.ts` -/

/-- `getControlPlaneUrl`: reads `CONTROL_PLANE_API_URL` (the parameter `env`,
`none` when unset, `?? ""` applied), returns `null` when blank, keeps an
explicit `http://`/`https://` value (minus one trailing slash), and otherwise
prefixes bare hosts with `http://` for `.railway.internal` hosts and
`https://` for the rest. -/
def getControlPlaneUrl (env : Option String) : Option String :=
  let raw := env.getD ""
  if raw = "" then none
  else if startsWithS raw "http://" || startsWithS raw "https://" then
    some (stripSlash raw)
  else
    let scheme := if endsWithS raw ".railway.internal" then "http" else "https"
    some (stripSlash (scheme ++ "://" ++ raw))

/-! ## Helper lemmas about the capped log -/

theorem append_take_take (a b : List ServerLog) (n : ℕ) :
    (a ++ b.take n).take n = (a ++ b).take n := by
  rw [List.take_append_eq_append_take, List.take_append_eq_append_take, List.take_take,
    min_eq_left (Nat.sub_le n a.length)]

theorem appendMany_logs (sid : String) (ps : List (String × LogInput)) :
    ∀ s : StoreShape, ((s.logs sid).getD []).length ≤ 200 →
      ((appendMany sid ps s).logs sid).getD [] =
        ((ps.map fun p => mkLogEntry p.1 p.2).reverse ++ (s.logs sid).getD []).take 200 := by
  induction ps with
  | nil =>
    intro s h
    simp [appendMany, List.take_of_length_le h]
  | cons p ps ih =>
    intro s h
    have step : appendMany sid (p :: ps) s =
        appendMany sid ps (appendServerLog sid p.1 p.2 s) := rfl
    have hlen : (((appendServerLog sid p.1 p.2 s).logs sid).getD []).length ≤ 200 := by
      simp [appendServerLog]
    rw [step, ih _ hlen]
    have hgd : ((appendServerLog sid p.1 p.2 s).logs sid).getD [] =
        (mkLogEntry p.1 p.2 :: (s.logs sid).getD []).take 200 := by
      simp [appendServerLog]
    rw [hgd, append_take_take]
    simp [List.append_assoc]

/-- C1: per-server logs are capped at 200 entries: every `appendServerLog`
leaves the touched log with at most 200 entries, places the new entry at the
front (dropping the oldest, back entries beyond the cap), and appending 205
entries to a server with no prior log leaves exactly the 200 most recent,
newest first. -/
theorem C1_log_cap (sid uuid : String) (log : LogInput) (s : StoreShape)
    (ps : List (String × LogInput)) (hps : ps.length = 205) (h0 : s.logs sid = none) :
    (((appendServerLog sid uuid log s).logs sid).getD []).length ≤ 200 ∧
    (appendServerLog sid uuid log s).logs sid =
      some (mkLogEntry uuid log :: ((s.logs sid).getD []).take 199) ∧
    ((appendMany sid ps s).logs sid).getD [] =
      ((ps.map fun p => mkLogEntry p.1 p.2).reverse).take 200 ∧
    (((appendMany sid ps s).logs sid).getD []).length = 200 := by
  have hmain := appendMany_logs sid ps s (by simp [h0])
  refine ⟨?_, ?_, ?_, ?_⟩
  · simp [appendServerLog]
  · simp only [appendServerLog, if_pos rfl]
    rfl
  · rw [hmain, h0]
    simp
  · rw [hmain, h0]
    simp [hps]

/-- A concrete log input for witnesses. -/
def logInputA : LogInput := ⟨"2024-01-01T00:00:00Z", .info, "probe"⟩

/-- 205 concrete append inputs. -/
def ps205 : List (String × LogInput) := (List.range 205).map fun i => (Nat.repr i, logInputA)

/-- C1 witness: the cap, front placement and 205-append statements at a
concrete server, log input and 205-entry input list. -/
theorem C1_log_cap_witness :
    (((appendServerLog "s1" "u0" logInputA emptyStore).logs "s1").getD []).length ≤ 200 ∧
    (appendServerLog "s1" "u0" logInputA emptyStore).logs "s1" =
      some (mkLogEntry "u0" logInputA :: ((emptyStore.logs "s1").getD []).take 199) ∧
    ((appendMany "s1" ps205 emptyStore).logs "s1").getD [] =
      ((ps205.map fun p => mkLogEntry p.1 p.2).reverse).take 200 ∧
    (((appendMany "s1" ps205 emptyStore).logs "s1").getD []).length = 200 :=
  C1_log_cap "s1" "u0" logInputA emptyStore ps205 (by simp [ps205]) rfl

/-- C2: for a valid creation input (non-blank name and endpoint, recognized
type) whose id is non-empty and whose name/endpoint/type triple is not
already in the store, `addServer` stores a record with `createdAt` set to the
creation time, writes exactly one initial info log entry
"Server <name> added (<type>)." for the server's id, and `listServers` then
contains exactly one record with the supplied name, endpoint and type, with a
non-empty id. -/
theorem C2_addServer_create_list (input : NewServerInput) (now logId logTs : String)
    (s : StoreShape)
    (hname : trimS input.name ≠ "") (hendp : trimS input.endpoint ≠ "")
    (hid : input.id ≠ "")
    (hfresh : ∀ r ∈ s.servers,
      ¬(r.name = input.name ∧ r.endpoint = input.endpoint ∧ r.type = input.type)) :
    (addServer input now logId logTs s).1.createdAt = now ∧
    (addServer input now logId logTs s).1.id ≠ "" ∧
    (addServer input now logId logTs s).2.logs input.id =
      some [⟨logId, logTs, .info,
        "Server " ++ input.name ++ " added (" ++ input.type.str ++ ")."⟩] ∧
    (listServers (addServer input now logId logTs s).2).filter
        (fun r => decide (r.name = input.name ∧ r.endpoint = input.endpoint ∧
          r.type = input.type)) = [(addServer input now logId logTs s).1] := by
  refine ⟨rfl, hid, by simp [addServer], ?_⟩
  have hnil : s.servers.filter
      (fun r => decide (r.name = input.name ∧ r.endpoint = input.endpoint ∧
        r.type = input.type)) = [] := by
    rw [List.filter_eq_nil_iff]
    intro r hr
    simpa using hfresh r hr
  simp [listServers, addServer, List.filter_cons, hnil]
  intro a ha h1 h2 h3
  exact hfresh a ha ⟨h1, h2, h3⟩

/-- A concrete creation input for witnesses. -/
def inputA : NewServerInput := ⟨"id-1", "Weather", "https://x/mcp", ServerType.http⟩

/-- C2 witness: creating a concrete server in the empty store. -/
theorem C2_addServer_create_list_witness :
    (addServer inputA "t1" "u1" "t2" emptyStore).1.createdAt = "t1" ∧
    (addServer inputA "t1" "u1" "t2" emptyStore).1.id ≠ "" ∧
    (addServer inputA "t1" "u1" "t2" emptyStore).2.logs inputA.id =
      some [⟨"u1", "t2", .info,
        "Server " ++ inputA.name ++ " added (" ++ inputA.type.str ++ ")."⟩] ∧
    (listServers (addServer inputA "t1" "u1" "t2" emptyStore).2).filter
        (fun r => decide (r.name = inputA.name ∧ r.endpoint = inputA.endpoint ∧
          r.type = inputA.type)) = [(addServer inputA "t1" "u1" "t2" emptyStore).1] :=
  C2_addServer_create_list inputA "t1" "u1" "t2" emptyStore (by decide) (by decide)
    (by decide) (by simp [emptyStore])

theorem length_filter_lt_iff (l : List ServerRecord) (id : String) :
    (l.filter (fun r => r.id != id)).length < l.length ↔ ∃ r ∈ l, r.id = id := by
  induction l with
  | nil => simp
  | cons a l ih =>
    by_cases h : a.id = id
    · have hf : (a :: l).filter (fun r => r.id != id) = l.filter (fun r => r.id != id) := by
        simp [List.filter_cons, h]
      rw [hf]
      simp only [List.length_cons]
      constructor
      · intro _
        exact ⟨a, List.mem_cons_self a l, h⟩
      · intro _
        exact Nat.lt_succ_of_le (List.length_filter_le _ _)
    · have hf : (a :: l).filter (fun r => r.id != id) =
          a :: l.filter (fun r => r.id != id) := by
        simp [List.filter_cons, h]
      rw [hf]
      simp only [List.length_cons, Nat.succ_lt_succ_iff]
      rw [ih]
      constructor
      · rintro ⟨r, hr, hrid⟩
        exact ⟨r, List.mem_cons_of_mem a hr, hrid⟩
      · rintro ⟨r, hr, hrid⟩
        rcases List.mem_cons.mp hr with rfl | hr'
        · exact absurd hrid h
        · exact ⟨r, hr', hrid⟩

/-- C3: `removeServer` returns `true` exactly when a record with the id was
present, removes every record with the id together with the id's entire log,
and a second `removeServer` on the same id returns `false` (removal of an
absent id is not an error but a `false` result). -/
theorem C3_removeServer (id : String) (s : StoreShape) :
    ((removeServer id s).1 = true ↔ ∃ r ∈ s.servers, r.id = id) ∧
    (∀ r ∈ (removeServer id s).2.servers, r.id ≠ id) ∧
    (removeServer id s).2.logs id = none ∧
    (removeServer id ((removeServer id s).2)).1 = false := by
  have hall : ∀ r ∈ (removeServer id s).2.servers, (r.id != id) = true := by
    intro r hr
    simp only [removeServer] at hr
    exact (List.mem_filter.mp hr).2
  refine ⟨?_, ?_, ?_, ?_⟩
  · simp only [removeServer, decide_eq_true_eq]
    exact length_filter_lt_iff s.servers id
  · intro r hr
    have h2 := hall r hr
    simpa [bne_iff_ne] using h2
  · simp [removeServer]
  · have hself : (removeServer id s).2.servers.filter (fun r => r.id != id) =
        (removeServer id s).2.servers :=
      List.filter_eq_self.mpr hall
    show decide (((removeServer id s).2.servers.filter
        (fun r => r.id != id)).length < (removeServer id s).2.servers.length) = false
    rw [hself]
    simp

/-- C9: store operations are framed to their own id: for any other id,
`appendServerLog` changes neither that id's log nor the server list, and
`removeServer` changes neither that id's log nor the records carrying that
id. -/
theorem C9_frame (idt uuid : String) (log : LogInput) (id2 : String) (h : id2 ≠ idt)
    (s : StoreShape) :
    (appendServerLog idt uuid log s).logs id2 = s.logs id2 ∧
    (appendServerLog idt uuid log s).servers = s.servers ∧
    (removeServer idt s).2.logs id2 = s.logs id2 ∧
    (removeServer idt s).2.servers.filter (fun r => r.id == id2) =
      s.servers.filter (fun r => r.id == id2) := by
  refine ⟨?_, rfl, ?_, ?_⟩
  · simp [appendServerLog, h]
  · simp [removeServer, h]
  · simp only [removeServer, List.filter_filter]
    apply List.filter_congr
    intro r _
    by_cases hrid : r.id = id2
    · have hne : r.id ≠ idt := by
        rw [hrid]
        exact h
      simp [hrid, hne]
      exact h
    · simp [hrid]

/-- C9 witness: the frame equalities at concrete distinct ids over the empty
store. -/
theorem C9_frame_witness :
    (appendServerLog "a" "u" logInputA emptyStore).logs "b" = emptyStore.logs "b" ∧
    (appendServerLog "a" "u" logInputA emptyStore).servers = emptyStore.servers ∧
    (removeServer "a" emptyStore).2.logs "b" = emptyStore.logs "b" ∧
    (removeServer "a" emptyStore).2.servers.filter (fun r => r.id == "b") =
      emptyStore.servers.filter (fun r => r.id == "b") :=
  C9_frame "a" "u" logInputA "b" (by decide) emptyStore

/-! ## Trimming is idempotent -/

theorem trimL_idem (l : List Char) : trimL (trimL l) = trimL l := by
  unfold trimL
  set m := l.dropWhile isJsSpace with hm
  have hA : (List.rdropWhile isJsSpace m).dropWhile isJsSpace =
      List.rdropWhile isJsSpace m := by
    rw [List.dropWhile_eq_self_iff]
    intro hl
    have hpre := List.rdropWhile_prefix isJsSpace m
    have hget := List.IsPrefix.getElem hpre (n := 0) hl
    rw [List.get_eq_getElem, hget]
    have hlen : 0 < (l.dropWhile isJsSpace).length := by
      rw [← hm]
      exact lt_of_lt_of_le hl hpre.length_le
    have hnot := List.dropWhile_get_zero_not (p := isJsSpace) l hlen
    simpa [List.get_eq_getElem, ← hm] using hnot
  rw [hA, List.rdropWhile_idempotent]

theorem trimS_idem (s : String) : trimS (trimS s) = trimS s := by
  show String.mk (trimL (trimL s.data)) = String.mk (trimL s.data)
  rw [trimL_idem]

/-- C5 counterexample: retrieving the logs of an id with no log history does
not return an empty sequence, and the read changes the stored state (the id's
log becomes a one-entry list). -/
theorem C5_counterexample :
    (getServerLogs "s1" "u1" "t1" emptyStore).1 ≠ [] ∧
    (getServerLogs "s1" "u1" "t1" emptyStore).2.logs "s1" ≠ emptyStore.logs "s1" := by
  refine ⟨?_, ?_⟩ <;> simp [getServerLogs, emptyStore]

/-- C5 (amended): retrieving the logs of an id with no log history is not an
error, but it returns a single info placeholder entry
"No logs yet for this server." rather than an empty sequence, and it stores
that entry as the id's log (the server list itself is unchanged). -/
theorem C5_getServerLogs_placeholder (id uuid ts : String) (s : StoreShape)
    (h : s.logs id = none) :
    (getServerLogs id uuid ts s).1 =
      [⟨uuid, ts, .info, "No logs yet for this server."⟩] ∧
    (getServerLogs id uuid ts s).2.logs id =
      some [⟨uuid, ts, .info, "No logs yet for this server."⟩] ∧
    (getServerLogs id uuid ts s).2.servers = s.servers := by
  simp [getServerLogs, h]

/-- C5 witness: the placeholder behaviour at a concrete id over the empty
store. -/
theorem C5_getServerLogs_placeholder_witness :
    (getServerLogs "s2" "u2" "t2" emptyStore).1 =
      [⟨"u2", "t2", .info, "No logs yet for this server."⟩] ∧
    (getServerLogs "s2" "u2" "t2" emptyStore).2.logs "s2" =
      some [⟨"u2", "t2", .info, "No logs yet for this server."⟩] ∧
    (getServerLogs "s2" "u2" "t2" emptyStore).2.servers = emptyStore.servers :=
  C5_getServerLogs_placeholder "s2" "u2" "t2" emptyStore rfl

/-! ## The dashboard submit paths (`handleCreateServer` / `handleEdit`) -/

/-- `type NewServerDraft` of the dashboard page. -/
structure NewServerDraft where
  name : String
  endpoint : String
  type : ServerType
  authToken : Option String

/-- The token field of a submit payload:
`authToken: draft.authToken?.trim() || undefined` — the trimmed token when it
is non-empty, absent otherwise. -/
def payloadToken (tok : Option String) : Option String :=
  match tok with
  | none => none
  | some t => if trimS t = "" then none else some (trimS t)

/-- The JSON body both submit paths send to the API. -/
structure ServerSubmitPayload where
  name : String
  endpoint : String
  type : ServerType
  authToken : Option String
deriving DecidableEq

/-- The payload `handleEdit` builds (it requires a draft and target id and
always submits). -/
def handleEditPayload (d : NewServerDraft) : ServerSubmitPayload :=
  ⟨d.name, d.endpoint, d.type, payloadToken d.authToken⟩

/-- The payload `handleCreateServer` submits: nothing is sent when the
trimmed name or endpoint is empty, otherwise the draft with the processed
token field. -/
def handleCreateServerPayload (d : NewServerDraft) : Option ServerSubmitPayload :=
  if trimS d.name = "" ∨ trimS d.endpoint = "" then none
  else some ⟨d.name, d.endpoint, d.type, payloadToken d.authToken⟩

/-- Modelled from the spec: the control-plane `Update` operation's handling
of the Vault entry (the backend implementing §4.1/§4.3 is not among the
repository's visible files): it "replaces the Vault entry only if token is
non-blank (blank/omitted means keep existing secret)", and a blank string is
treated as no credential. -/
def vaultAfterUpdate (existing : Option String) (tokenField : Option String) :
    Option String :=
  match tokenField with
  | none => existing
  | some t => if trimS t = "" then existing else some t

theorem payloadToken_none_iff (tok : Option String) :
    payloadToken tok = none ↔ trimS (tok.getD "") = "" := by
  cases tok with
  | none =>
    have h0 : trimS "" = "" := rfl
    simp [payloadToken, h0]
  | some t =>
    simp only [payloadToken, Option.getD_some]
    by_cases h : trimS t = ""
    · simp [h]
    · simp [h]

/-- C6: both dashboard submit paths include `authToken` in the request
payload exactly when the trimmed token field is non-empty (absent otherwise),
and the control plane's vault then keeps the existing secret on a blank or
omitted token while a non-blank token replaces it. -/
theorem C6_token_payload_and_vault (d : NewServerDraft) (existing : Option String) :
    ((handleEditPayload d).authToken = none ↔ trimS (d.authToken.getD "") = "") ∧
    (∀ p, handleCreateServerPayload d = some p →
      (p.authToken = none ↔ trimS (d.authToken.getD "") = "")) ∧
    (trimS (d.authToken.getD "") = "" →
      vaultAfterUpdate existing (handleEditPayload d).authToken = existing) ∧
    (∀ t, d.authToken = some t → trimS t ≠ "" →
      vaultAfterUpdate existing (handleEditPayload d).authToken = some (trimS t)) := by
  refine ⟨payloadToken_none_iff d.authToken, ?_, ?_, ?_⟩
  · intro p hp
    by_cases hg : trimS d.name = "" ∨ trimS d.endpoint = ""
    · simp [handleCreateServerPayload, hg] at hp
    · rw [handleCreateServerPayload, if_neg hg] at hp
      obtain rfl := (Option.some_inj.mp hp).symm
      exact payloadToken_none_iff d.authToken
  · intro hblank
    have : (handleEditPayload d).authToken = none :=
      (payloadToken_none_iff d.authToken).mpr hblank
    rw [this]
    rfl
  · intro t ht hne
    have : (handleEditPayload d).authToken = some (trimS t) := by
      simp [handleEditPayload, payloadToken, ht, hne]
    rw [this]
    show (if trimS (trimS t) = "" then existing else some (trimS t)) = some (trimS t)
    rw [trimS_idem]
    exact if_neg hne

/-! ## The control-plane registry `Create` (modelled from the spec) -/

/-- The backend registry state: the record/log store and the credential
vault (a map from server id to secret). -/
structure RegistryState where
  store : StoreShape
  vault : String → Option String

/-- The recognized transport-type strings of a creation request. -/
def parseServerType (s : String) : Option ServerType :=
  if s = "stdio" then some .stdio
  else if s = "http" then some .http
  else if s = "sse" then some .sse
  else none

/-- Modelled from the spec: the control-plane Registry `Create` operation
(§4.1; the backend implementing it is not among the repository's visible
files, the dashboard only proxies to it).  It "fails with `ValidationError`
if name or endpoint is empty/whitespace-only, or type is not one of the
three recognized values", leaving all state untouched; on success it stores
the record and initial log entry (the store's `addServer` shape) and stores
the token in the vault if non-blank. -/
def registryCreate (name endpoint tyStr : String) (token : Option String)
    (freshId now logId logTs : String) (st : RegistryState) :
    Except String ServerRecord × RegistryState :=
  if trimS name = "" then (.error "ValidationError", st)
  else if trimS endpoint = "" then (.error "ValidationError", st)
  else
    match parseServerType tyStr with
    | none => (.error "ValidationError", st)
    | some ty =>
      let res := addServer ⟨freshId, name, endpoint, ty⟩ now logId logTs st.store
      let vault :=
        match token with
        | none => st.vault
        | some t =>
          if trimS t = "" then st.vault
          else fun k => if k = freshId then some t else st.vault k
      (.ok res.1, ⟨res.2, vault⟩)

/-- C4: `Create` fails with a `ValidationError` and leaves the registry and
log store unchanged whenever the supplied name or endpoint is empty or
whitespace-only, or the type is not one of stdio, http, sse. -/
theorem C4_create_validation (name endpoint tyStr : String) (token : Option String)
    (freshId now logId logTs : String) (st : RegistryState)
    (h : trimS name = "" ∨ trimS endpoint = "" ∨ parseServerType tyStr = none) :
    (registryCreate name endpoint tyStr token freshId now logId logTs st).1 =
      .error "ValidationError" ∧
    (registryCreate name endpoint tyStr token freshId now logId logTs st).2 = st := by
  rcases h with h1 | h2 | h3
  · simp [registryCreate, h1]
  · by_cases h1 : trimS name = ""
    · simp [registryCreate, h1]
    · simp [registryCreate, h1, h2]
  · by_cases h1 : trimS name = ""
    · simp [registryCreate, h1]
    · by_cases h2 : trimS endpoint = ""
      · simp [registryCreate, h1, h2]
      · simp [registryCreate, h1, h2, h3]

/-- C4 witness: creating with a whitespace-only name over the empty registry
fails with `ValidationError` and changes nothing. -/
theorem C4_create_validation_witness :
    (registryCreate " " "https://x/mcp" "http" none "id9" "t" "u" "t2"
      ⟨emptyStore, fun _ => none⟩).1 = .error "ValidationError" ∧
    (registryCreate " " "https://x/mcp" "http" none "id9" "t" "u" "t2"
      ⟨emptyStore, fun _ => none⟩).2 = ⟨emptyStore, fun _ => none⟩ :=
  C4_create_validation " " "https://x/mcp" "http" none "id9" "t" "u" "t2"
    ⟨emptyStore, fun _ => none⟩ (Or.inl rfl)

/-! ## The dashboard API proxy routes -/

/-- The status/parsed-body pair a successful upstream `fetch` + `json()`
yields. -/
structure UpstreamResult where
  status : Nat
  payload : String
deriving DecidableEq

/-- The body of a proxy route response: the upstream JSON payload echoed, the
missing-configuration error object, or the catch-branch error object. -/
inductive RouteBody
  | json (payload : String)
  | missingConfig
  | fetchFailed (detail : String)
deriving DecidableEq

/-- A `NextResponse.json(body, { status })` value. -/
structure RouteResponse where
  status : Nat
  body : RouteBody
deriving DecidableEq

/-- `POST /api/servers/[id]/check`: no try/catch, so an upstream exception
escapes the handler (`Except.error`).  The second component lists the
upstream URLs fetched. -/
def checkRoutePOST (env : Option String)
    (upstream : String → Except String UpstreamResult) (id : String) :
    Except String RouteResponse × List String :=
  match getControlPlaneUrl env with
  | none => (.ok ⟨500, .missingConfig⟩, [])
  | some base =>
    let url := base ++ "/servers/" ++ id ++ "/check"
    match upstream url with
    | .ok r => (.ok ⟨r.status, .json r.payload⟩, [url])
    | .error e => (.error e, [url])

/-- `DELETE /api/servers/[id]`: try/catch converts an upstream exception into
a 502 "Failed to reach control plane." response. -/
def serverRouteDELETE (env : Option String)
    (upstream : String → Except String UpstreamResult) (id : String) :
    RouteResponse × List String :=
  match getControlPlaneUrl env with
  | none => (⟨500, .missingConfig⟩, [])
  | some base =>
    let url := base ++ "/servers/" ++ id
    match upstream url with
    | .ok r => (⟨r.status, .json r.payload⟩, [url])
    | .error e => (⟨502, .fetchFailed e⟩, [url])

/-- `PUT /api/servers/[id]`: forwards the request body text; try/catch as in
DELETE. -/
def serverRoutePUT (env : Option String)
    (upstream : String → String → Except String UpstreamResult) (id body : String) :
    RouteResponse × List String :=
  match getControlPlaneUrl env with
  | none => (⟨500, .missingConfig⟩, [])
  | some base =>
    let url := base ++ "/servers/" ++ id
    match upstream url body with
    | .ok r => (⟨r.status, .json r.payload⟩, [url])
    | .error e => (⟨502, .fetchFailed e⟩, [url])

/-- `GET /api/servers` (plain variant, no try/catch). -/
def serversRouteGET (env : Option String)
    (upstream : String → Except String UpstreamResult) :
    Except String RouteResponse × List String :=
  match getControlPlaneUrl env with
  | none => (.ok ⟨500, .missingConfig⟩, [])
  | some base =>
    let url := base ++ "/servers"
    match upstream url with
    | .ok r => (.ok ⟨r.status, .json r.payload⟩, [url])
    | .error e => (.error e, [url])

/-- `POST /api/servers` (plain variant): forwards the request body text. -/
def serversRoutePOST (env : Option String)
    (upstream : String → String → Except String UpstreamResult) (body : String) :
    Except String RouteResponse × List String :=
  match getControlPlaneUrl env with
  | none => (.ok ⟨500, .missingConfig⟩, [])
  | some base =>
    let url := base ++ "/servers"
    match upstream url body with
    | .ok r => (.ok ⟨r.status, .json r.payload⟩, [url])
    | .error e => (.error e, [url])

/-- `GET /api/servers` (try/catch variant). -/
def serversRouteGETSafe (env : Option String)
    (upstream : String → Except String UpstreamResult) :
    RouteResponse × List String :=
  match getControlPlaneUrl env with
  | none => (⟨500, .missingConfig⟩, [])
  | some base =>
    let url := base ++ "/servers"
    match upstream url with
    | .ok r => (⟨r.status, .json r.payload⟩, [url])
    | .error e => (⟨502, .fetchFailed e⟩, [url])

/-- `POST /api/servers` (try/catch variant). -/
def serversRoutePOSTSafe (env : Option String)
    (upstream : String → String → Except String UpstreamResult) (body : String) :
    RouteResponse × List String :=
  match getControlPlaneUrl env with
  | none => (⟨500, .missingConfig⟩, [])
  | some base =>
    let url := base ++ "/servers"
    match upstream url body with
    | .ok r => (⟨r.status, .json r.payload⟩, [url])
    | .error e => (⟨502, .fetchFailed e⟩, [url])

/-- C7: with the control-plane base URL configured, every proxy route's
response body is exactly the JSON payload the control plane returned and the
response status equals the upstream status; the one upstream URL fetched is
the forwarded action's endpoint. -/
theorem C7_proxy_echoes_upstream (env : Option String) (base : String)
    (hbase : getControlPlaneUrl env = some base) (r : UpstreamResult)
    (f : String → Except String UpstreamResult)
    (g : String → String → Except String UpstreamResult)
    (hf : ∀ u, f u = .ok r) (hg : ∀ u b, g u b = .ok r) (id body : String) :
    checkRoutePOST env f id =
      (.ok ⟨r.status, .json r.payload⟩, [base ++ "/servers/" ++ id ++ "/check"]) ∧
    serversRouteGET env f = (.ok ⟨r.status, .json r.payload⟩, [base ++ "/servers"]) ∧
    serversRoutePOST env g body =
      (.ok ⟨r.status, .json r.payload⟩, [base ++ "/servers"]) ∧
    serverRouteDELETE env f id =
      (⟨r.status, .json r.payload⟩, [base ++ "/servers/" ++ id]) ∧
    serverRoutePUT env g id body =
      (⟨r.status, .json r.payload⟩, [base ++ "/servers/" ++ id]) ∧
    serversRouteGETSafe env f = (⟨r.status, .json r.payload⟩, [base ++ "/servers"]) ∧
    serversRoutePOSTSafe env g body =
      (⟨r.status, .json r.payload⟩, [base ++ "/servers"]) := by
  refine ⟨?_, ?_, ?_, ?_, ?_, ?_, ?_⟩ <;>
    simp [checkRoutePOST, serversRouteGET, serversRoutePOST, serverRouteDELETE,
      serverRoutePUT, serversRouteGETSafe, serversRoutePOSTSafe, hbase, hf, hg]

/-- A concrete always-successful upstream. -/
def okUpstream : String → Except String UpstreamResult := fun _ => .ok ⟨201, "payload"⟩

/-- A concrete always-successful body-forwarding upstream. -/
def okUpstream2 : String → String → Except String UpstreamResult :=
  fun _ _ => .ok ⟨201, "payload"⟩

/-- C7 witness: the echo equalities at a concrete configured base URL and
upstream response. -/
theorem C7_proxy_echoes_upstream_witness :
    checkRoutePOST (some "http://cp") okUpstream "abc" =
      (.ok ⟨201, .json "payload"⟩, ["http://cp" ++ "/servers/" ++ "abc" ++ "/check"]) ∧
    serversRouteGET (some "http://cp") okUpstream =
      (.ok ⟨201, .json "payload"⟩, ["http://cp" ++ "/servers"]) ∧
    serversRoutePOST (some "http://cp") okUpstream2 "{}" =
      (.ok ⟨201, .json "payload"⟩, ["http://cp" ++ "/servers"]) ∧
    serverRouteDELETE (some "http://cp") okUpstream "abc" =
      (⟨201, .json "payload"⟩, ["http://cp" ++ "/servers/" ++ "abc"]) ∧
    serverRoutePUT (some "http://cp") okUpstream2 "abc" "{}" =
      (⟨201, .json "payload"⟩, ["http://cp" ++ "/servers/" ++ "abc"]) ∧
    serversRouteGETSafe (some "http://cp") okUpstream =
      (⟨201, .json "payload"⟩, ["http://cp" ++ "/servers"]) ∧
    serversRoutePOSTSafe (some "http://cp") okUpstream2 "{}" =
      (⟨201, .json "payload"⟩, ["http://cp" ++ "/servers"]) :=
  C7_proxy_echoes_upstream (some "http://cp") "http://cp" rfl ⟨201, "payload"⟩
    okUpstream okUpstream2 (fun _ => rfl) (fun _ _ => rfl) "abc" "{}"

/-- C8: when the `CONTROL_PLANE_API_URL` setting is absent or empty,
`getControlPlaneUrl` returns `none` and every proxy route returns a
500 response reporting the missing configuration without performing any
upstream call (the fetched-URL list is empty). -/
theorem C8_missing_config (env : Option String) (h : env.getD "" = "")
    (f : String → Except String UpstreamResult)
    (g : String → String → Except String UpstreamResult) (id body : String) :
    getControlPlaneUrl env = none ∧
    checkRoutePOST env f id = (.ok ⟨500, .missingConfig⟩, []) ∧
    serversRouteGET env f = (.ok ⟨500, .missingConfig⟩, []) ∧
    serversRoutePOST env g body = (.ok ⟨500, .missingConfig⟩, []) ∧
    serverRouteDELETE env f id = (⟨500, .missingConfig⟩, []) ∧
    serverRoutePUT env g id body = (⟨500, .missingConfig⟩, []) ∧
    serversRouteGETSafe env f = (⟨500, .missingConfig⟩, []) ∧
    serversRoutePOSTSafe env g body = (⟨500, .missingConfig⟩, []) := by
  have hnone : getControlPlaneUrl env = none := by
    simp [getControlPlaneUrl, h]
  refine ⟨hnone, ?_, ?_, ?_, ?_, ?_, ?_, ?_⟩ <;>
    simp [checkRoutePOST, serversRouteGET, serversRoutePOST, serverRouteDELETE,
      serverRoutePUT, serversRouteGETSafe, serversRoutePOSTSafe, hnone]

/-- A concrete never-reachable upstream. -/
def downUpstream : String → Except String UpstreamResult := fun _ => .error "down"

/-- A concrete never-reachable body-forwarding upstream. -/
def downUpstream2 : String → String → Except String UpstreamResult :=
  fun _ _ => .error "down"

/-- C8 witness: the missing-configuration behaviour with the environment
variable unset. -/
theorem C8_missing_config_witness :
    getControlPlaneUrl none = none ∧
    checkRoutePOST none downUpstream "abc" = (.ok ⟨500, .missingConfig⟩, []) ∧
    serversRouteGET none downUpstream = (.ok ⟨500, .missingConfig⟩, []) ∧
    serversRoutePOST none downUpstream2 "{}" = (.ok ⟨500, .missingConfig⟩, []) ∧
    serverRouteDELETE none downUpstream "abc" = (⟨500, .missingConfig⟩, []) ∧
    serverRoutePUT none downUpstream2 "abc" "{}" = (⟨500, .missingConfig⟩, []) ∧
    serversRouteGETSafe none downUpstream = (⟨500, .missingConfig⟩, []) ∧
    serversRoutePOSTSafe none downUpstream2 "{}" = (⟨500, .missingConfig⟩, []) :=
  C8_missing_config none rfl downUpstream downUpstream2 "abc" "{}"

/-! ## URL normalization (C10) -/

theorem leadsWith_append (p t : List Char) : leadsWith p (p ++ t) = true := by
  induction p with
  | nil => rfl
  | cons c p ih => simp [leadsWith, ih]

theorem data_ne_nil (s : String) (h : s ≠ "") : s.data ≠ [] := by
  intro hn
  apply h
  cases s
  simp only at hn
  subst hn
  rfl

theorem startsWithS_stripSlash_append (pre raw : String) (h : raw ≠ "") :
    startsWithS (stripSlash (pre ++ raw)) pre = true := by
  unfold stripSlash
  by_cases he : endsWithS (pre ++ raw) "/"
  · rw [if_pos he]
    have hd : (pre ++ raw).data.dropLast = pre.data ++ raw.data.dropLast := by
      rw [String.data_append]
      exact List.dropLast_append_of_ne_nil _ (data_ne_nil raw h)
    unfold startsWithS
    rw [show (String.mk ((pre ++ raw).data.dropLast)).data =
      (pre ++ raw).data.dropLast from rfl, hd]
    exact leadsWith_append _ _
  · rw [if_neg he]
    unfold startsWithS
    rw [String.data_append]
    exact leadsWith_append _ _

/-- C10 counterexample: the code removes at most one trailing slash, so
`"http://a//"` resolves to `"http://a/"`, which still ends in a slash; and
the degenerate value `"http://"` resolves to `"http:/"`, which begins with
neither `http://` nor `https://`. -/
theorem C10_counterexample :
    getControlPlaneUrl (some "http://a//") = some "http://a/" ∧
    endsWithS "http://a/" "/" = true ∧
    getControlPlaneUrl (some "http://") = some "http:/" ∧
    startsWithS "http:/" "http://" = false ∧
    startsWithS "http:/" "https://" = false := by
  refine ⟨rfl, rfl, rfl, rfl, rfl⟩

/-- C10 (amended): for every non-empty `CONTROL_PLANE_API_URL` value,
`getControlPlaneUrl` returns a URL: a value already carrying an `http://` or
`https://` prefix is kept as-is minus at most one trailing slash (further
trailing slashes — or, for the bare prefix `"http://"` itself, part of the
prefix — survive), a bare host ending in `.railway.internal` is prefixed
with `http://`, and every other bare host is prefixed with `https://`; in
the two prefixing cases the result does begin with the added scheme. -/
theorem C10_url_normalization (raw : String) (h : raw ≠ "") :
    (getControlPlaneUrl (some raw)).isSome = true ∧
    (startsWithS raw "http://" = true ∨ startsWithS raw "https://" = true →
      getControlPlaneUrl (some raw) = some (stripSlash raw)) ∧
    (startsWithS raw "http://" = false → startsWithS raw "https://" = false →
      endsWithS raw ".railway.internal" = true →
      getControlPlaneUrl (some raw) = some (stripSlash ("http://" ++ raw)) ∧
      startsWithS (stripSlash ("http://" ++ raw)) "http://" = true) ∧
    (startsWithS raw "http://" = false → startsWithS raw "https://" = false →
      endsWithS raw ".railway.internal" = false →
      getControlPlaneUrl (some raw) = some (stripSlash ("https://" ++ raw)) ∧
      startsWithS (stripSlash ("https://" ++ raw)) "https://" = true) := by
  refine ⟨?_, ?_, ?_, ?_⟩
  · by_cases hs : startsWithS raw "http://" || startsWithS raw "https://"
    · simp [getControlPlaneUrl, h, hs]
    · by_cases hr : endsWithS raw ".railway.internal" <;>
        simp [getControlPlaneUrl, h, hs, hr]
  · intro hor
    have hb : (startsWithS raw "http://" || startsWithS raw "https://") = true := by
      rcases hor with h1 | h1 <;> simp [h1]
    simp [getControlPlaneUrl, h, hb]
  · intro h1 h2 hr
    have hb : (startsWithS raw "http://" || startsWithS raw "https://") = false := by
      simp [h1, h2]
    exact ⟨by simp [getControlPlaneUrl, h, hb, hr],
      startsWithS_stripSlash_append "http://" raw h⟩
  · intro h1 h2 hr
    have hb : (startsWithS raw "http://" || startsWithS raw "https://") = false := by
      simp [h1, h2]
    exact ⟨by simp [getControlPlaneUrl, h, hb, hr],
      startsWithS_stripSlash_append "https://" raw h⟩

/-- C10 witness: the normalization cases at the concrete bare host
`cp.railway.internal`. -/
theorem C10_url_normalization_witness :
    (getControlPlaneUrl (some "cp.railway.internal")).isSome = true ∧
    (startsWithS "cp.railway.internal" "http://" = true ∨
      startsWithS "cp.railway.internal" "https://" = true →
      getControlPlaneUrl (some "cp.railway.internal") =
        some (stripSlash "cp.railway.internal")) ∧
    (startsWithS "cp.railway.internal" "http://" = false →
      startsWithS "cp.railway.internal" "https://" = false →
      endsWithS "cp.railway.internal" ".railway.internal" = true →
      getControlPlaneUrl (some "cp.railway.internal") =
        some (stripSlash ("http://" ++ "cp.railway.internal")) ∧
      startsWithS (stripSlash ("http://" ++ "cp.railway.internal")) "http://" = true) ∧
    (startsWithS "cp.railway.internal" "http://" = false →
      startsWithS "cp.railway.internal" "https://" = false →
      endsWithS "cp.railway.internal" ".railway.internal" = false →
      getControlPlaneUrl (some "cp.railway.internal") =
        some (stripSlash ("https://" ++ "cp.railway.internal")) ∧
      startsWithS (stripSlash ("https://" ++ "cp.railway.internal")) "https://" = true) :=
  C10_url_normalization "cp.railway.internal" (by decide)

end FastMCP
